import Mathlib

/-!
# Verification of the Electron host-process orchestrator

Shallow embedding of `packages/core/src/electron-main/electron-main-application.ts`
and `packages/core/src/electron-main/electron-api-main.ts`, together with proofs
about the window registry, window-state store, splash coordinator, restart
protocol, backend supervision and the correlated request/response IPC protocol.

Machine numbers are modelled as `Nat`/`Int`; asynchronous code is modelled by
explicit state passing over event lists; Electron APIs (display lookup, window
bounds) are parameters of the embedded functions.
-/

/-! ## Title bar style decision (`ElectronMainApplication.getTitleBarStyle`) -/

/-- Chrome mode: OS-drawn (`native`) or application-drawn (`custom`) decorations. -/
inductive TitleBarStyle
  | native
  | custom
deriving DecidableEq, Repr

/-- The inputs read by `getTitleBarStyle`:
the `THEIA_ELECTRON_DISABLE_NATIVE_ELEMENTS` environment variable (`none` when the
key is absent), the platform flags, the persisted `windowstate.frame` field of the
electron store, and the configured `window.titleBarStyle` preference. -/
structure TitleBarEnv where
  envDisableNativeElements : Option String
  isOSX : Bool
  storedFrame : Option Bool
  titleBarStylePref : Option String
deriving DecidableEq, Repr

/-- Whether the environment override is active: the key is present with value `"1"`. -/
def envOverrideActive (e : TitleBarEnv) : Bool :=
  e.envDisableNativeElements = some "1"

/-- Direct translation of `ElectronMainApplication.getTitleBarStyle` (the
`isWindows` flag is the remaining platform input). -/
def getTitleBarStyle (e : TitleBarEnv) (isWindows : Bool) : TitleBarStyle :=
  if envOverrideActive e then .custom
  else if e.isOSX then .native
  else
    match e.storedFrame with
    | some f => if f then .native else .custom
    | none =>
      match e.titleBarStylePref with
      | some p =>
        if p = "native" then .native
        else if p = "custom" then .custom
        else if isWindows then .custom else .native
      | none => if isWindows then .custom else .native

/-- First defined value of an ordered list of optional sources. -/
def firstDefined {α : Type} : List (Option α) → Option α
  | [] => none
  | some a :: _ => some a
  | none :: rest => firstDefined rest

/-- Modelled from the spec: the ordered override sources for the chrome mode,
highest priority first (environment override, macOS platform default, persisted
prior choice, configured preference, remaining platform default). -/
def titleBarSources (e : TitleBarEnv) (isWindows : Bool) : List (Option TitleBarStyle) :=
  [ if envOverrideActive e then some .custom else none,
    if e.isOSX then some .native else none,
    e.storedFrame.map (fun f => if f then TitleBarStyle.native else TitleBarStyle.custom),
    e.titleBarStylePref.bind (fun p =>
      if p = "native" then some TitleBarStyle.native
      else if p = "custom" then some TitleBarStyle.custom
      else none),
    some (if isWindows then .custom else .native) ]

/-! ## Early-created initial window (`ElectronMainApplication.reuseOrCreateWindow`) -/

/-- The slice of application state used by `reuseOrCreateWindow`:
the optional early-created window (by id) and an id allocator modelling
the never-reused, increasing Electron `webContents` ids. -/
structure WindowAlloc where
  initialWindow : Option Nat
  nextId : Nat
deriving DecidableEq, Repr

/-- Creating a brand new window yields a fresh id (`createWindow`). -/
def createWindowId (s : WindowAlloc) : Nat × WindowAlloc :=
  (s.nextId, { s with nextId := s.nextId + 1 })

/-- Direct translation of `reuseOrCreateWindow`: if no early window is stored,
create one; otherwise hand out the stored window and clear the reference. -/
def reuseOrCreateWindow (s : WindowAlloc) : Nat × WindowAlloc :=
  match s.initialWindow with
  | none => createWindowId s
  | some w => (w, { s with initialWindow := none })

/-- Running `k` consecutive `reuseOrCreateWindow` calls, collecting the returned
window ids. -/
def reuseCalls : Nat → WindowAlloc → List Nat × WindowAlloc
  | 0, s => ([], s)
  | k + 1, s =>
    let r := reuseOrCreateWindow s
    let rest := reuseCalls k r.2
    (r.1 :: rest.1, rest.2)

/-- Allocator well-formedness: a stored early window id was allocated earlier. -/
def WindowAllocWF (s : WindowAlloc) : Prop :=
  ∀ w, s.initialWindow = some w → w < s.nextId

/-! ## `openUrl` walk over the activation stack -/

/-- One send of `CHANNEL_OPEN_URL` happens per window asked, so the list of ids
asked in order is the list of deliveries.  `windows` maps a registered window id
to the reply of that window to `openUrl` (`true` = the window accepts the URL);
unregistered ids are skipped (`this.windows.get(id)` is `undefined`).
Direct translation of `ElectronMainApplication.openUrl`. -/
def openUrlWalk (stack : List Nat) (windows : List (Nat × Bool)) : List Nat :=
  match stack with
  | [] => []
  | id :: rest =>
    match windows.lookup id with
    | none => openUrlWalk rest windows
    | some accepts => if accepts then [id] else id :: openUrlWalk rest windows

/-! ## Restart protocol (`ElectronMainApplication.restart`) -/

/-- Observable outcome of one `restart(webContents)` call. -/
structure RestartResult where
  restartingAfter : Bool
  relaunches : Nat
deriving DecidableEq, Repr

/-- Direct translation of `restart`: set the `restarting` flag, and if the
window is registered ask it to close with `StopReason.Restart`.  When the close
succeeds the `onDidClose` listener runs `handleMainCommand` and clears the flag;
when the close is vetoed (`wrapper.close` resolves `false`) the code only
disposes the listener.  `registered` is whether `windows.get(webContents.id)`
found a wrapper; `closeVetoed` is the negation of the value `wrapper.close`
resolves to. -/
def restartRun (_restarting0 : Bool) (registered : Bool) (closeVetoed : Bool) : RestartResult :=
  let r1 : RestartResult := { restartingAfter := true, relaunches := 0 }
  if registered then
    if closeVetoed then
      r1
    else
      { restartingAfter := false, relaunches := r1.relaunches + 1 }
  else r1

/-- `onWindowAllClosed`: quit is requested exactly when the `restarting` flag is
down. Direct translation. -/
def onWindowAllClosed (restarting : Bool) : Bool :=
  !restarting

/-! ## Backend worker termination on quit (`ElectronMainApplication.startBackend`) -/

/-- Result of the OS delivering a signal to a kill target. -/
inductive SignalResult
  | ok
  | err (code : String)
deriving DecidableEq, Repr

/-- The child-process fields read by the quit-event handler. -/
structure BackendProc where
  exitCode : Option Int
  signalCode : Option String
  pid : Option Nat
deriving DecidableEq, Repr

/-- Direct translation of the application quit-event handler installed by
`startBackend`: if the backend has neither exited nor been signalled, call
`process.kill(backendProcess.pid)` — note the argument is the plain positive
pid, i.e. the signal goes to the immediate child process only (a process-group
kill would pass `-pid`).  An `ESRCH` failure is swallowed, any other error is
rethrown.  `deliver` models the OS outcome of signalling a given target; the
result carries the signalled target (`.ok (some t)`), `.ok none` when no signal
was sent or the failure was swallowed, and `.error code` for a rethrown error. -/
def onQuitTerminateBackend (p : BackendProc) (deliver : Int → SignalResult) :
    Except String (Option Int) :=
  if p.exitCode = none ∧ p.signalCode = none then
    match p.pid with
    | some pid =>
      match deliver (Int.ofNat pid) with
      | .ok => .ok (some (Int.ofNat pid))
      | .err code => if code = "ESRCH" then .ok none else .error code
    | none => .ok none
  else .ok none

/-! ## Window geometry store (`getLastWindowOptions`, `getDefaultTheiaWindowBounds`,
`getCurrentScreenLayout`) -/

/-- A display or window bounds rectangle. -/
structure Rect where
  x : Int
  y : Int
  width : Int
  height : Int
deriving DecidableEq, Repr

/-- `Math.round(n * (2 / 3))` over the integers: `⌊2n/3 + 1/2⌋ = ⌊(4n+3)/6⌋`
(JS `Math.round` rounds halves toward positive infinity; `2n/3` is never a
half, and the double-precision evaluation agrees with the exact rational for
all realistic display sizes). -/
def jsRoundTwoThirds (n : Int) : Int := (4 * n + 3).fdiv 6

/-- `Math.round(a + b / 2)` for integers `a`, `b`: `a + ⌊(b+1)/2⌋`. -/
def jsRoundHalfOffset (a b : Int) : Int := a + (b + 1).fdiv 2

/-- Direct translation of `getDefaultTheiaWindowBounds`: two thirds of the
display nearest the cursor, centered on it by hand. -/
def getDefaultTheiaWindowBounds (display : Rect) : Rect :=
  let height := jsRoundTwoThirds display.height
  let width := jsRoundTwoThirds display.width
  let y := jsRoundHalfOffset display.y (display.height - height)
  let x := jsRoundHalfOffset display.x (display.width - width)
  { x := x, y := y, width := width, height := height }

/-- The JS default array-sort comparator on strings: lexicographic comparison
of the character sequences. -/
def charListLt : List Char → List Char → Bool
  | [], [] => false
  | [], _ :: _ => true
  | _ :: _, [] => false
  | a :: as, b :: bs => if a < b then true else if b < a then false else charListLt as bs

/-- JS `Array.prototype.sort()` on strings (ascending, stable). -/
def jsStringSort (l : List String) : List String :=
  List.insertionSort (fun a b => charListLt b.data a.data = false) l

/-- One display rendered as `x:y:w:h`. -/
def displayString (d : Rect) : String :=
  toString d.x ++ ":" ++ toString d.y ++ ":" ++ toString d.width ++ ":" ++ toString d.height

/-- Direct translation of `getCurrentScreenLayout`: the sorted, `-`-joined
`x:y:w:h` tuples of all attached displays. -/
def getCurrentScreenLayout (displays : List Rect) : String :=
  String.intercalate "-" (jsStringSort (displays.map displayString))

/-- The window-state record persisted by `saveWindowState` (the fields of
`TheiaBrowserWindowOptions` that the store round-trips). -/
structure TheiaWindowState where
  x : Int
  y : Int
  width : Int
  height : Int
  isMaximized : Bool
  isFullScreen : Bool
  frame : Bool
  screenLayout : Option String
  backgroundColor : Option String
deriving DecidableEq, Repr

/-- The window state produced by `getDefaultTheiaWindowOptions` merged with
`getDefaultOptions` (restricted to the persisted fields): centered default
bounds, not maximized, not fullscreen, no stored screen layout. -/
def getDefaultTheiaWindowState (useNativeFrame : Bool) (defaultBackgroundColor : String)
    (nearestDisplay : Rect) : TheiaWindowState :=
  let b := getDefaultTheiaWindowBounds nearestDisplay
  { x := b.x, y := b.y, width := b.width, height := b.height,
    isMaximized := false, isFullScreen := false, frame := useNativeFrame,
    screenLayout := none, backgroundColor := some defaultBackgroundColor }

/-- Direct translation of `getLastWindowOptions`: reuse the persisted window
state exactly when its stored `screenLayout` equals the current layout
fingerprint, otherwise compute fresh defaults.  The final spread
`{frame, ...defaults, ...windowState}` resolves to `windowState` on every
persisted field, so the merge is the selected state itself.  `nearestDisplay`
is the display Electron reports nearest to the cursor. -/
def getLastWindowOptions (previous : Option TheiaWindowState) (displays : List Rect)
    (nearestDisplay : Rect) (useNativeFrame : Bool) (defaultBackgroundColor : String) :
    TheiaWindowState :=
  match previous with
  | some p =>
    if p.screenLayout = some (getCurrentScreenLayout displays) then p
    else getDefaultTheiaWindowState useNativeFrame defaultBackgroundColor nearestDisplay
  | none => getDefaultTheiaWindowState useNativeFrame defaultBackgroundColor nearestDisplay

/-! ## Correlated close-confirmation protocol (`TheiaRendererAPI.requestClose`,
`TheiaRendererAPI.requestSecondaryClose`) -/

/-- A decimal digit rendered as a character. -/
def digitToChar : Nat → Char
  | 0 => '0'
  | 1 => '1'
  | 2 => '2'
  | 3 => '3'
  | 4 => '4'
  | 5 => '5'
  | 6 => '6'
  | 7 => '7'
  | 8 => '8'
  | _ => '9'

/-- Little-endian decimal digits of `n`, rendering zero as a single digit
(models the JS number-to-string conversion of the reply-channel counter). -/
def jsNatDigits (n : Nat) : List Nat :=
  if n = 0 then [0] else Nat.digits 10 n

/-- The JS template rendering `${n}` of the counter. -/
def jsNatString (n : Nat) : String :=
  String.mk (((jsNatDigits n).map digitToChar).reverse)

/-- The confirm reply channel `confirm-${channelNr}`. -/
def confirmChannelName (n : Nat) : String := "confirm-" ++ jsNatString n

/-- The cancel reply channel `cancel-${channelNr}`. -/
def cancelChannelName (n : Nat) : String := "cancel-" ++ jsNatString n

/-- Channel allocation in `requestClose`/`requestSecondaryClose`: read and
post-increment the module-global `nextReplyChannel` counter. -/
def allocReplyChannels (nextReplyChannel : Nat) : (String × String) × Nat :=
  ((confirmChannelName nextReplyChannel, cancelChannelName nextReplyChannel),
    nextReplyChannel + 1)

/-- The pending request: whether the promise has resolved (and to what), and
whether the two temporary `ipcMain` listeners have been disposed. -/
structure ReplyState where
  resolved : Option Bool
  listenersDisposed : Bool
deriving DecidableEq, Repr

/-- One incoming IPC message on channel `ch`.  Before disposal, a message on
the confirm channel resolves `true` and a message on the cancel channel
resolves `false`; the `finally` on the promise then disposes both listeners
(it runs as a microtask, before the next IPC event is processed).  After
disposal every message is ignored. -/
def handleReply (confirm cancel : String) (s : ReplyState) (ch : String) : ReplyState :=
  if s.listenersDisposed then s
  else if ch = confirm then { resolved := some true, listenersDisposed := true }
  else if ch = cancel then { resolved := some false, listenersDisposed := true }
  else s

/-- Run one `requestClose`/`requestSecondaryClose` request allocated at counter
`n` against a stream of incoming IPC messages. -/
def runRequestClose (n : Nat) (replies : List String) : ReplyState :=
  replies.foldl (handleReply (confirmChannelName n) (cancelChannelName n))
    { resolved := none, listenersDisposed := false }

/-- Modelled from the spec: the first reply received on either reply channel
decides the outcome (`confirm` resolves `true`, `cancel` resolves `false`). -/
def firstReplyResolution (confirm cancel : String) (replies : List String) : Option Bool :=
  ((replies.filter (fun ch => ch == confirm || ch == cancel)).head?).map
    (fun ch => ch == confirm)


/-! ## Splash coordinator (`ElectronMainApplication.configureAndShowSplashScreen`) -/

/-- State of one splash race: whether the shared cancellation token was
cancelled, whether the minimum-duration timeout promise resolved, whether the
`ready` handler attached the `minTime.then` continuation, the two window
states, the time of the first splash close, and how many times the transition
ran. -/
structure SplashState where
  cancelled : Bool
  minResolved : Bool
  minThenAttached : Bool
  mainVisible : Bool
  splashClosed : Bool
  firstCloseAt : Option Nat
  transitions : Nat
deriving DecidableEq, Repr

/-- `showWindowAndCloseSplashScreen` executed at time `t`: cancel the token
source (rejecting any still-pending timeout), show the main window if it is not
already visible, and close the splash window. -/
def showWindowAndCloseSplash (t : Nat) (s : SplashState) : SplashState :=
  { s with
    cancelled := true
    mainVisible := true
    splashClosed := true
    firstCloseAt := match s.firstCloseAt with | some u => some u | none => some t
    transitions := s.transitions + 1 }

/-- The primitive events of the race: the two timer deadlines and the
the `ready` application-state signal of the renderer. -/
inductive SplashEvent
  | minFire
  | maxFire
  | ready
deriving DecidableEq, Repr

/-- Processing one timed event.  A timeout that fires after cancellation was
cleared and does nothing.  When the min timeout fires with the `ready`
continuation already attached, the transition runs; when `ready` arrives it
attaches `minTime.then(...)`, which runs at once if the min timeout already
resolved (and never runs if that promise was cancelled, i.e. rejected, first).
The max timeout runs the transition directly. -/
def splashStep (s : SplashState) (e : Nat × SplashEvent) : SplashState :=
  match e.2 with
  | .minFire =>
    if s.cancelled then s
    else
      let s1 := { s with minResolved := true }
      if s1.minThenAttached then showWindowAndCloseSplash e.1 s1 else s1
  | .maxFire => if s.cancelled then s else showWindowAndCloseSplash e.1 s
  | .ready =>
    let s1 := { s with minThenAttached := true }
    if s1.minResolved then showWindowAndCloseSplash e.1 s1 else s1

/-- Stable insertion by timestamp. -/
def insertByTime (x : Nat × SplashEvent) : List (Nat × SplashEvent) → List (Nat × SplashEvent)
  | [] => [x]
  | y :: ys => if x.1 ≤ y.1 then x :: y :: ys else y :: insertByTime x ys

/-- Stable sort of the event list by timestamp. -/
def sortByTime : List (Nat × SplashEvent) → List (Nat × SplashEvent)
  | [] => []
  | x :: xs => insertByTime x (sortByTime xs)

/-- The events of one race in time order.  Ties keep registration order: the
min timeout was created before the max timeout, and a same-tick renderer
message is processed after due timers. -/
def splashEvents (minD maxD : Nat) (ready : Option Nat) : List (Nat × SplashEvent) :=
  sortByTime ([(minD, .minFire), (maxD, .maxFire)] ++
    (match ready with | some r => [(r, .ready)] | none => []))

/-- Direct translation of the timer race in `configureAndShowSplashScreen`:
`minTime := timeout(minDuration ?? 0)`, `maxTime := timeout(maxDuration ?? 30000)`
on a shared cancellation token; on `ready` the renderer handler runs
`minTime.then(transition)`; `maxTime.then(transition)` is installed
unconditionally.  `ready` is the (optional) time at which the target window
signals ready; `mainVisible0` is whether the target window is already shown. -/
def configureAndShowSplashScreen (minDuration maxDuration : Option Nat) (ready : Option Nat)
    (mainVisible0 : Bool) : SplashState :=
  (splashEvents (minDuration.getD 0) (maxDuration.getD 30000) ready).foldl splashStep
    { cancelled := false, minResolved := false, minThenAttached := false,
      mainVisible := mainVisible0, splashClosed := false, firstCloseAt := none,
      transitions := 0 }


/-! ## Overlap avoidance (`ElectronMainApplication.avoidOverlap`) -/

/-- The candidate window-options fields read and written by `avoidOverlap`. -/
structure CandidateOptions where
  x : Int
  y : Int
  isMaximized : Bool
  isFullScreen : Bool
deriving DecidableEq, Repr

/-- The loop condition: the bounds of some existing window share an x or a y
coordinate with the candidate. -/
def collides (existing : List (Int × Int)) (o : CandidateOptions) : Bool :=
  existing.any (fun w => w.1 = o.x || w.2 = o.y)

/-- One `while` body: a maximized/fullscreen candidate is first replaced by the
fresh centered defaults (`getDefaultTheiaWindowOptions()`, which is never
maximized or fullscreen), then both coordinates are offset by 30. -/
def avoidOverlapStep (defaults : CandidateOptions) (o : CandidateOptions) : CandidateOptions :=
  let o1 := if o.isMaximized || o.isFullScreen then defaults else o
  { o1 with x := o1.x + 30, y := o1.y + 30 }

/-- The `while` loop with explicit fuel bounding the number of iterations. -/
def avoidOverlapLoop (defaults : CandidateOptions) (existing : List (Int × Int)) :
    Nat → CandidateOptions → CandidateOptions
  | 0, o => o
  | fuel + 1, o =>
    if collides existing o then
      avoidOverlapLoop defaults existing fuel (avoidOverlapStep defaults o)
    else o

/-- Direct translation of `avoidOverlap`: the loop runs only when at least one
window already exists. -/
def avoidOverlap (defaults : CandidateOptions) (existing : List (Int × Int))
    (o : CandidateOptions) (fuel : Nat) : CandidateOptions :=
  if 0 < existing.length then avoidOverlapLoop defaults existing fuel o else o

/-- The candidate after `j` coordinate offsets of 30. -/
def shiftBy (j : Nat) (o : CandidateOptions) : CandidateOptions :=
  { o with x := o.x + 30 * (j : Int), y := o.y + 30 * (j : Int) }

/-- Thirty existing windows placed so that window `i` blocks the candidate
offset trajectory at step `2i` (by x) and at step `2i+1` (by y). -/
def blockersThirty : List (Int × Int) :=
  [(0, 30), (60, 90), (120, 150), (180, 210), (240, 270), (300, 330), (360, 390), (420, 450), (480, 510), (540, 570), (600, 630), (660, 690), (720, 750), (780, 810), (840, 870), (900, 930), (960, 990), (1020, 1050), (1080, 1110), (1140, 1170), (1200, 1230), (1260, 1290), (1320, 1350), (1380, 1410), (1440, 1470), (1500, 1530), (1560, 1590), (1620, 1650), (1680, 1710), (1740, 1770)]


/-! ## Window registry and activation stack (`ElectronMainApplication.createWindow`) -/

/-- The registry-relevant window lifecycle events: `createWindow` registering a
fresh window, the BrowserWindow `focus` event, and the wrapper `onDidClose`
event. -/
inductive WinOp
  | create (id : Nat)
  | focus (id : Nat)
  | close (id : Nat)
deriving DecidableEq, Repr

/-- The registry state: the keys of the `windows` map (in insertion order), the
`activeWindowStack` (index 0 first), and the set of ids ever allocated
(Electron `webContents` ids are never reused). -/
structure Registry where
  windows : List Nat
  activeWindowStack : List Nat
  used : List Nat
deriving DecidableEq, Repr

/-- The registry before any window exists. -/
def emptyRegistry : Registry := { windows := [], activeWindowStack := [], used := [] }

/-- Direct translation of the three handlers wired in `createWindow`:
creation `push`es the id onto the end of the stack and registers the window in
the map; the `focus` handler splices the id out of the stack (first occurrence,
if present) and `unshift`s it to the front; the `onDidClose` handler splices
the id out of the stack and deletes it from the map. -/
def applyOp (s : Registry) : WinOp → Registry
  | .create id =>
    { windows := s.windows ++ [id],
      activeWindowStack := s.activeWindowStack ++ [id],
      used := s.used ++ [id] }
  | .focus id =>
    { s with activeWindowStack := id :: s.activeWindowStack.erase id }
  | .close id =>
    { s with
      windows := s.windows.erase id,
      activeWindowStack := s.activeWindowStack.erase id }

/-- Running a sequence of lifecycle events. -/
def runOps (s : Registry) : List WinOp → Registry
  | [] => s
  | op :: rest => runOps (applyOp s op) rest

/-- Event validity: windows are created with fresh (never allocated) ids, and
`focus`/`close` events are only emitted by currently registered windows (the
listeners live on the registered BrowserWindow and die with it). -/
def ValidOps (s : Registry) : List WinOp → Prop
  | [] => True
  | op :: rest =>
    (match op with
     | .create id => id ∉ s.used
     | .focus id => id ∈ s.windows
     | .close id => id ∈ s.windows) ∧ ValidOps (applyOp s op) rest

/-- Registry invariant: the stack and the window map hold exactly the same
ids, without duplicates, and every registered id has been allocated. -/
def RegInv (s : Registry) : Prop :=
  s.activeWindowStack.Nodup ∧ s.windows.Nodup ∧
  (∀ id, id ∈ s.activeWindowStack ↔ id ∈ s.windows) ∧
  (∀ id ∈ s.windows, id ∈ s.used)

/-! # Theorems -/

/-! ## C8 -/

/-- C8: `getTitleBarStyle` evaluates the chrome-mode override sources in the
exact priority order — environment override (`THEIA_ELECTRON_DISABLE_NATIVE_ELEMENTS=1`
forces `custom`), then the macOS platform default (`native`), then the persisted
`windowstate.frame` choice, then the configured `window.titleBarStyle`
preference, then the platform default for the remaining OSes (`custom` on
Windows, `native` otherwise) — returning the first defined value. -/
theorem getTitleBarStyle_priority_order (e : TitleBarEnv) (isWindows : Bool) :
    some (getTitleBarStyle e isWindows) = firstDefined (titleBarSources e isWindows) := by
  rcases e with ⟨env, osx, stored, pref⟩
  unfold getTitleBarStyle titleBarSources
  by_cases henv : envOverrideActive ⟨env, osx, stored, pref⟩ <;>
    cases osx <;> rcases stored with _ | f <;> rcases pref with _ | p <;>
      simp only [henv, Option.map, Option.bind, if_true, if_false] <;>
      split_ifs <;> simp_all [firstDefined]

/-! ## C10 -/

/-- The ids handed out from an initial-window-free allocator are exactly the
next `k` fresh ids. -/
theorem reuseCalls_none (k n : Nat) :
    reuseCalls k { initialWindow := none, nextId := n } =
      (List.range' n k, { initialWindow := none, nextId := n + k }) := by
  induction k generalizing n with
  | zero => simp [reuseCalls]
  | succ k ih =>
    simp [reuseCalls, reuseOrCreateWindow, createWindowId, ih, List.range']
    omega

/-- C10: the early-created initial window is consumed at most once —
`reuseOrCreateWindow` returns the stored `initialWindow` and immediately clears
the reference, every later call creates a fresh window, and no two calls receive
the same window (the returned id list of any run of calls has no duplicates). -/
theorem initialWindow_consumed_once (s : WindowAlloc) (w : Nat) (k : Nat)
    (hwf : WindowAllocWF s) (hw : s.initialWindow = some w) :
    reuseOrCreateWindow s = (w, { s with initialWindow := none }) ∧
    (reuseCalls (k + 1) s).1 = w :: List.range' s.nextId k ∧
    (reuseCalls (k + 1) s).1.Nodup := by
  have hfirst : reuseOrCreateWindow s = (w, { s with initialWindow := none }) := by
    simp [reuseOrCreateWindow, hw]
  have hrest : (reuseCalls (k + 1) s).1 = w :: List.range' s.nextId k := by
    simp [reuseCalls, hfirst, reuseCalls_none]
  refine ⟨hfirst, hrest, ?_⟩
  rw [hrest]
  refine List.nodup_cons.mpr ⟨?_, List.nodup_range' ..⟩
  intro hmem
  have := hwf w hw
  have := (List.mem_range'_1).mp hmem
  omega

/-- C10 witness: a concrete allocator holding early window `5`, run for three
calls: the early window is handed out once, then fresh windows `7, 8`. -/
theorem initialWindow_consumed_once_witness :
    WindowAllocWF { initialWindow := some 5, nextId := 7 } ∧
    ({ initialWindow := some 5, nextId := 7 } : WindowAlloc).initialWindow = some 5 ∧
    (reuseCalls 3 { initialWindow := some 5, nextId := 7 }).1 = [5, 7, 8] := by
  have h := initialWindow_consumed_once { initialWindow := some 5, nextId := 7 } 5 2
    (by intro w hw; cases hw; decide) rfl
  exact ⟨by intro w hw; cases hw; decide, rfl, by rw [h.2.1]; rfl⟩

/-! ## C7 -/

/-- C7: `openUrl` walks the activation stack from most-recently-focused to
least, delivering the URL to each registered window in turn and stopping at the
first window that accepts: with stack `[a, b, …]` where `a` rejects and `b`
accepts, the deliveries are exactly `[a, b]` — one delivery to `a`, one to `b`,
and none to any later window. -/
theorem openUrl_first_acceptor_wins (a b : Nat) (rest : List Nat)
    (windows : List (Nat × Bool))
    (ha : windows.lookup a = some false) (hb : windows.lookup b = some true) :
    openUrlWalk (a :: b :: rest) windows = [a, b] ∧
    (openUrlWalk (a :: b :: rest) windows).count a = 1 ∧
    (openUrlWalk (a :: b :: rest) windows).count b = 1 ∧
    ∀ c ∈ rest, c ∉ [a, b] → (openUrlWalk (a :: b :: rest) windows).count c = 0 := by
  have hne : a ≠ b := by
    intro h
    rw [h, hb] at ha
    simp at ha
  have hwalk : openUrlWalk (a :: b :: rest) windows = [a, b] := by
    simp [openUrlWalk, ha, hb]
  refine ⟨hwalk, ?_, ?_, ?_⟩
  · rw [hwalk]; simp [List.count_cons, hne]
  · rw [hwalk]; simp [List.count_cons, hne]
  · intro c _ hc
    rw [hwalk]
    simp only [List.mem_cons, List.mem_singleton, not_or] at hc
    simp [List.count_cons, hc.1, hc.2]

/-- C7 witness: stack `[3, 8, 4]`, window `3` rejects, window `8` accepts,
window `4` never receives a delivery. -/
theorem openUrl_first_acceptor_wins_witness :
    openUrlWalk [3, 8, 4] [(3, false), (8, true), (4, true)] = [3, 8] :=
  (openUrl_first_acceptor_wins 3 8 [4] [(3, false), (8, true), (4, true)]
    (by decide) (by decide)).1

/-! ## C1 -/

/-- C1 (code evaluation at the failing input): when the close of a registered
window is vetoed, `restart` never invokes `handleMainCommand` (no relaunch), but
the `restarting` flag is left `true` — it is not rolled back to `false` as the
specification requires — so `onWindowAllClosed` keeps suppressing the quit
policy afterwards. -/
theorem restart_vetoed_flag_not_rolled_back :
    restartRun false true true = { restartingAfter := true, relaunches := 0 } ∧
    (restartRun false true true).restartingAfter ≠ false ∧
    onWindowAllClosed (restartRun false true true).restartingAfter = false := by
  refine ⟨rfl, by decide, rfl⟩

/-! ## C3 -/

/-- C3 (code evaluation at the failing input): for a still-running backend with
pid 1234 the quit handler signals the immediate child pid `1234`, not the
process group `-1234` the spec (and the `getForkOptions`
process-group comment) requires; the `ESRCH` branch is swallowed (the handler
returns normally without signalling) and any other delivery error is rethrown. -/
theorem onQuitTerminate_kills_immediate_pid_only :
    onQuitTerminateBackend ⟨none, none, some 1234⟩ (fun _ => .ok) = .ok (some 1234) ∧
    (1234 : Int) ≠ -1234 ∧
    onQuitTerminateBackend ⟨none, none, some 1234⟩ (fun _ => .err "ESRCH") = .ok none ∧
    onQuitTerminateBackend ⟨none, none, some 1234⟩ (fun _ => .err "EPERM") = .error "EPERM" ∧
    onQuitTerminateBackend ⟨some 0, none, some 1234⟩ (fun _ => .ok) = .ok none := by
  refine ⟨rfl, by decide, rfl, rfl, rfl⟩

/-! ## C4 -/

/-- C4: `getLastWindowOptions` returns the persisted geometry exactly when its
stored `screenLayout` fingerprint equals the fingerprint of the currently
attached displays, and otherwise returns freshly computed centered defaults
(two thirds of the display nearest the cursor, centered on it). -/
theorem getLastWindowOptions_fingerprint_decides (previous : Option TheiaWindowState)
    (displays : List Rect) (nearestDisplay : Rect) (useNativeFrame : Bool) (bg : String) :
    (∀ p, previous = some p →
      p.screenLayout = some (getCurrentScreenLayout displays) →
      getLastWindowOptions previous displays nearestDisplay useNativeFrame bg = p) ∧
    ((∀ p, previous = some p →
        p.screenLayout ≠ some (getCurrentScreenLayout displays)) →
      getLastWindowOptions previous displays nearestDisplay useNativeFrame bg =
        getDefaultTheiaWindowState useNativeFrame bg nearestDisplay) := by
  constructor
  · rintro p rfl hp
    simp [getLastWindowOptions, hp]
  · intro h
    cases previous with
    | none => rfl
    | some p => simp [getLastWindowOptions, h p rfl]

/-- C4 witness: with two displays attached, a persisted record whose stored
fingerprint matches the live layout is reused as-is; a record with a stale
fingerprint is replaced by the centered defaults. -/
theorem getLastWindowOptions_fingerprint_decides_witness :
    getLastWindowOptions
        (some ⟨1, 2, 3, 4, false, false, true,
          some (getCurrentScreenLayout [⟨0, 0, 30, 30⟩, ⟨30, 0, 12, 12⟩]), none⟩)
        [⟨0, 0, 30, 30⟩, ⟨30, 0, 12, 12⟩] ⟨0, 0, 30, 30⟩ true "#fff" =
      ⟨1, 2, 3, 4, false, false, true,
        some (getCurrentScreenLayout [⟨0, 0, 30, 30⟩, ⟨30, 0, 12, 12⟩]), none⟩ ∧
    getLastWindowOptions (some ⟨1, 2, 3, 4, false, false, true, some "stale", none⟩)
        [⟨0, 0, 30, 30⟩] ⟨0, 0, 30, 30⟩ true "#fff" =
      getDefaultTheiaWindowState true "#fff" ⟨0, 0, 30, 30⟩ := by
  constructor
  · exact (getLastWindowOptions_fingerprint_decides _ _ _ _ _).1 _ rfl rfl
  · refine (getLastWindowOptions_fingerprint_decides _ _ _ _ _).2 ?_
    rintro p ⟨rfl⟩
    decide

/-! ## C9 -/

/-- A disposed request ignores every further incoming message. -/
theorem foldl_handleReply_disposed (confirm cancel : String) (replies : List String)
    (s : ReplyState) (h : s.listenersDisposed = true) :
    replies.foldl (handleReply confirm cancel) s = s := by
  induction replies with
  | nil => rfl
  | cons ch rest ih => simp [List.foldl, handleReply, h, ih]

/-- The fold computes exactly the first-reply resolution. -/
theorem foldl_handleReply_resolution (confirm cancel : String) (replies : List String) :
    (replies.foldl (handleReply confirm cancel) ⟨none, false⟩).resolved =
      firstReplyResolution confirm cancel replies := by
  induction replies with
  | nil => rfl
  | cons ch rest ih =>
    by_cases hc : ch = confirm
    · subst hc
      simp [List.foldl, handleReply, firstReplyResolution,
        foldl_handleReply_disposed]
    · by_cases hk : ch = cancel
      · subst hk
        simp [List.foldl, handleReply, hc, firstReplyResolution,
          foldl_handleReply_disposed]
      · simpa [List.foldl, handleReply, hc, hk, firstReplyResolution] using ih

/-- Resolution and disposal happen together. -/
theorem foldl_handleReply_disposed_iff (confirm cancel : String) (replies : List String) :
    ∀ s : ReplyState, s.resolved.isSome = s.listenersDisposed →
      ((replies.foldl (handleReply confirm cancel) s).resolved.isSome =
        (replies.foldl (handleReply confirm cancel) s).listenersDisposed) := by
  induction replies with
  | nil => exact fun s h => h
  | cons ch rest ih =>
    intro s h
    apply ih
    unfold handleReply
    split_ifs <;> simp_all

/-- `digitToChar` is injective on decimal digits. -/
theorem digitToChar_inj : ∀ d1 < 10, ∀ d2 < 10, digitToChar d1 = digitToChar d2 → d1 = d2 := by
  decide

/-- All rendered digits are decimal digits. -/
theorem jsNatDigits_lt (n : Nat) : ∀ d ∈ jsNatDigits n, d < 10 := by
  intro d hd
  unfold jsNatDigits at hd
  split at hd
  · simp at hd
    omega
  · exact Nat.digits_lt_base (by norm_num) hd

/-- The decimal rendering round-trips. -/
theorem ofDigits_jsNatDigits (n : Nat) : Nat.ofDigits 10 (jsNatDigits n) = n := by
  unfold jsNatDigits
  split
  · simp_all [Nat.ofDigits]
  · exact Nat.ofDigits_digits 10 n

/-- The digit-list rendering is injective. -/
theorem jsNatDigits_inj {n m : Nat} (h : jsNatDigits n = jsNatDigits m) : n = m := by
  have h1 := ofDigits_jsNatDigits n
  rw [h, ofDigits_jsNatDigits m] at h1
  omega

/-- Mapping digits to characters is injective on digit lists. -/
theorem mapDigitToChar_inj : ∀ l1 l2 : List Nat, (∀ d ∈ l1, d < 10) → (∀ d ∈ l2, d < 10) →
    l1.map digitToChar = l2.map digitToChar → l1 = l2 := by
  intro l1
  induction l1 with
  | nil =>
    intro l2 _ _ h
    cases l2 <;> simp_all
  | cons a as ih =>
    intro l2 h1 h2 h
    cases l2 with
    | nil => simp at h
    | cons b bs =>
      simp only [List.map_cons, List.cons.injEq] at h
      have hab := digitToChar_inj a (h1 a (by simp)) b (h2 b (by simp)) h.1
      subst hab
      rw [ih bs (fun d hd => h1 d (by simp [hd])) (fun d hd => h2 d (by simp [hd])) h.2]

/-- The JS rendering of the counter is injective (at the character level). -/
theorem jsNatString_data_inj {n m : Nat} (h : (jsNatString n).data = (jsNatString m).data) :
    n = m := by
  have hrev : ((jsNatDigits n).map digitToChar).reverse =
      ((jsNatDigits m).map digitToChar).reverse := h
  exact jsNatDigits_inj
    (mapDigitToChar_inj _ _ (jsNatDigits_lt n) (jsNatDigits_lt m)
      (List.reverse_injective hrev))

/-- Distinct counters give distinct confirm channels. -/
theorem confirmChannelName_inj {n m : Nat} (h : confirmChannelName n = confirmChannelName m) :
    n = m := by
  have hd := congrArg String.data h
  rw [show confirmChannelName n = "confirm-" ++ jsNatString n from rfl,
    show confirmChannelName m = "confirm-" ++ jsNatString m from rfl,
    String.data_append, String.data_append] at hd
  exact jsNatString_data_inj (List.append_cancel_left hd)

/-- Distinct counters give distinct cancel channels. -/
theorem cancelChannelName_inj {n m : Nat} (h : cancelChannelName n = cancelChannelName m) :
    n = m := by
  have hd := congrArg String.data h
  rw [show cancelChannelName n = "cancel-" ++ jsNatString n from rfl,
    show cancelChannelName m = "cancel-" ++ jsNatString m from rfl,
    String.data_append, String.data_append] at hd
  exact jsNatString_data_inj (List.append_cancel_left hd)

/-- A confirm channel never collides with a cancel channel. -/
theorem confirm_ne_cancel (n m : Nat) : confirmChannelName n ≠ cancelChannelName m := by
  intro h
  have hd := congrArg String.data h
  rw [show confirmChannelName n = "confirm-" ++ jsNatString n from rfl,
    show cancelChannelName m = "cancel-" ++ jsNatString m from rfl,
    String.data_append, String.data_append,
    show "confirm-".data = ['c', 'o', 'n', 'f', 'i', 'r', 'm', '-'] from rfl,
    show "cancel-".data = ['c', 'a', 'n', 'c', 'e', 'l', '-'] from rfl] at hd
  simp at hd

/-- C9: each `requestClose`/`requestSecondaryClose` request allocates fresh
single-use confirm and cancel reply channels (the counter is post-incremented,
distinct counters give disjoint channel names, and confirm names never collide
with cancel names); the first reply received on either channel resolves the
promise (`confirm` resolves `true`, `cancel` resolves `false`); and the two
temporary listeners are disposed exactly when the promise resolves, regardless
of which channel fired. -/
theorem requestClose_protocol (n m : Nat) (replies : List String) (hnm : n ≠ m) :
    allocReplyChannels n = ((confirmChannelName n, cancelChannelName n), n + 1) ∧
    confirmChannelName n ≠ confirmChannelName m ∧
    cancelChannelName n ≠ cancelChannelName m ∧
    confirmChannelName n ≠ cancelChannelName m ∧
    cancelChannelName n ≠ confirmChannelName m ∧
    (runRequestClose n replies).resolved =
      firstReplyResolution (confirmChannelName n) (cancelChannelName n) replies ∧
    (runRequestClose n replies).resolved.isSome =
      (runRequestClose n replies).listenersDisposed := by
  refine ⟨rfl, fun h => hnm (confirmChannelName_inj h),
    fun h => hnm (cancelChannelName_inj h),
    confirm_ne_cancel n m,
    fun h => confirm_ne_cancel m n h.symm,
    foldl_handleReply_resolution _ _ _,
    foldl_handleReply_disposed_iff _ _ _ _ rfl⟩

/-- C9 witness: request `0` against the reply stream
`["noise", "cancel-0", "confirm-0"]`: the first matching reply (`cancel-0`)
resolves the promise to `false` and the listeners are torn down. -/
theorem requestClose_protocol_witness :
    (runRequestClose 0 ["noise", "cancel-0", "confirm-0"]).resolved = some false ∧
    (runRequestClose 0 ["noise", "cancel-0", "confirm-0"]).listenersDisposed = true := by
  have h := requestClose_protocol 0 1 ["noise", "cancel-0", "confirm-0"] (by decide)
  constructor
  · rw [h.2.2.2.2.2.1]
    decide
  · rw [← h.2.2.2.2.2.2, h.2.2.2.2.2.1]
    decide

/-! ## C6 -/

/-- C6 counterexample: with `minDuration = 10`, `maxDuration = 5` and the
target ready immediately, the max timer closes the splash at time 5, strictly
before the minimum duration has elapsed — refuting "the splash never closes
before the minimum duration elapses even if the target window signals ready". -/
theorem splash_min_duration_counterexample :
    (configureAndShowSplashScreen (some 10) (some 5) (some 0) false).firstCloseAt = some 5 ∧
    5 < 10 := by
  constructor
  · rfl
  · decide

/-- C6 (amended): the race closes the splash exactly at `maxD` when the target
never signals ready (`maxD` defaulting to 30000), and at
`min (max readyTime minD) maxD` otherwise — so the ready path always waits for
the minimum duration, and whenever the minimum duration does not exceed the
maximum duration the splash never closes before the minimum duration elapses.
Whichever path fires first performs the transition, idempotent on the window
state: the target window ends visible, the splash closed, and the shared token
cancelled (clearing the other pending timer). -/
theorem splash_race (minDuration maxDuration : Option Nat) (ready : Option Nat)
    (mainVisible0 : Bool) :
    (configureAndShowSplashScreen minDuration maxDuration ready mainVisible0).firstCloseAt =
      some (match ready with
        | none => maxDuration.getD 30000
        | some r => min (max r (minDuration.getD 0)) (maxDuration.getD 30000)) ∧
    (configureAndShowSplashScreen minDuration maxDuration ready mainVisible0).splashClosed
      = true ∧
    (configureAndShowSplashScreen minDuration maxDuration ready mainVisible0).mainVisible
      = true ∧
    (configureAndShowSplashScreen minDuration maxDuration ready mainVisible0).cancelled
      = true ∧
    (minDuration.getD 0 ≤ maxDuration.getD 30000 →
      ∀ t, (configureAndShowSplashScreen minDuration maxDuration ready mainVisible0).firstCloseAt
          = some t → minDuration.getD 0 ≤ t) := by
  cases ready with
  | none =>
    simp only [configureAndShowSplashScreen, splashEvents, List.append_nil, sortByTime,
      insertByTime]
    split_ifs <;> simp_all [List.foldl, splashStep, showWindowAndCloseSplash]
  | some r =>
    simp only [configureAndShowSplashScreen, splashEvents, List.cons_append, List.nil_append,
      sortByTime, insertByTime]
    split_ifs <;> simp only [insertByTime] <;> (try split_ifs) <;>
      simp_all [List.foldl, splashStep, showWindowAndCloseSplash] <;> omega

/-- C6 witness: minimum duration 0 with the target ready immediately — the
splash closes at time 0 without waiting for the (default 30000) maximum
duration, and the target window ends visible. -/
theorem splash_race_witness :
    (configureAndShowSplashScreen (some 0) none (some 0) false).firstCloseAt = some 0 ∧
    (configureAndShowSplashScreen (some 0) none (some 0) false).mainVisible = true ∧
    (0 : Nat) < 30000 := by
  have h := splash_race (some 0) none (some 0) false
  refine ⟨?_, h.2.2.1, by decide⟩
  rw [h.1]
  decide

/-! ## C2 -/

/-- Zero offsets leave the candidate unchanged. -/
theorem shiftBy_zero (o : CandidateOptions) : shiftBy 0 o = o := by
  cases o
  simp [shiftBy]

/-- Offsets compose additively. -/
theorem shiftBy_shiftBy (j k : Nat) (o : CandidateOptions) :
    shiftBy j (shiftBy k o) = shiftBy (j + k) o := by
  cases o
  simp [shiftBy, CandidateOptions.mk.injEq]
  omega

/-- Within `2 * existing.length + 1` consecutive offset positions some position
is collision-free: each existing window can block at most one position through
its x coordinate and one through its y coordinate. -/
theorem exists_free_shift (existing : List (Int × Int)) (o : CandidateOptions) :
    ∃ j ≤ 2 * existing.length, collides existing (shiftBy j o) = false := by
  classical
  by_contra hall
  push_neg at hall
  have hcoll : ∀ j ∈ Finset.range (2 * existing.length + 1),
      ∃ w ∈ existing, w.1 = o.x + 30 * (j : Int) ∨ w.2 = o.y + 30 * (j : Int) := by
    intro j hj
    have hj2 : j ≤ 2 * existing.length := by
      have := Finset.mem_range.mp hj
      omega
    have hne := hall j hj2
    have hc : collides existing (shiftBy j o) = true := by
      cases hcb : collides existing (shiftBy j o) with
      | false => exact absurd hcb hne
      | true => rfl
    simpa [collides, List.any_eq_true, shiftBy] using hc
  set N := existing.length with hN
  set T : Finset ((Int × Int) × Bool) := existing.toFinset ×ˢ Finset.univ with hT
  set cover : (Int × Int) × Bool → Finset Nat := fun p =>
    (Finset.range (2 * N + 1)).filter
      (fun j => (p.2 = true ∧ p.1.1 = o.x + 30 * (j : Int)) ∨
        (p.2 = false ∧ p.1.2 = o.y + 30 * (j : Int)))
    with hcover
  have hsub : Finset.range (2 * N + 1) ⊆ T.biUnion cover := by
    intro j hj
    obtain ⟨w, hw, hor⟩ := hcoll j hj
    rcases hor with h | h
    · exact Finset.mem_biUnion.mpr
        ⟨(w, true), by simp [hT, List.mem_toFinset, hw],
          by simp [hcover, Finset.mem_filter, hj, h]⟩
    · exact Finset.mem_biUnion.mpr
        ⟨(w, false), by simp [hT, List.mem_toFinset, hw],
          by simp [hcover, Finset.mem_filter, hj, h]⟩
  have hcard1 : ∀ p : (Int × Int) × Bool, (cover p).card ≤ 1 := by
    intro p
    refine Finset.card_le_one.mpr ?_
    intro a ha b hb
    rcases p with ⟨w, side⟩
    cases side <;> simp only [hcover, Finset.mem_filter] at ha hb <;>
      rcases ha.2 with ⟨_, h1⟩ | ⟨_, h1⟩ <;> rcases hb.2 with ⟨_, h2⟩ | ⟨_, h2⟩ <;>
        simp_all
  have hbound : (Finset.range (2 * N + 1)).card ≤ (T.biUnion cover).card :=
    Finset.card_le_card hsub
  have hbiU : (T.biUnion cover).card ≤ T.card := by
    calc (T.biUnion cover).card ≤ ∑ p ∈ T, (cover p).card := Finset.card_biUnion_le
    _ ≤ ∑ _p ∈ T, 1 := Finset.sum_le_sum (fun p _ => hcard1 p)
    _ = T.card := by simp
  have hTcard : T.card ≤ 2 * N := by
    have h1 : T.card = existing.toFinset.card * 2 := by
      simp [hT, Finset.card_product]
    have h2 := existing.toFinset_card_le
    omega
  rw [Finset.card_range] at hbound
  omega

/-- Once the candidate is not maximized/fullscreen, the loop reaches a
collision-free result as soon as some reachable offset position is free. -/
theorem avoidOverlapLoop_reaches_free (defaults : CandidateOptions)
    (existing : List (Int × Int)) :
    ∀ (n : Nat) (o : CandidateOptions), o.isMaximized = false → o.isFullScreen = false →
      (∃ j ≤ n, collides existing (shiftBy j o) = false) →
      collides existing (avoidOverlapLoop defaults existing (n + 1) o) = false := by
  intro n
  induction n with
  | zero =>
    intro o _ _ hex
    obtain ⟨j, hj, hjc⟩ := hex
    have hj0 : j = 0 := Nat.le_zero.mp hj
    subst hj0
    rw [shiftBy_zero] at hjc
    simp [avoidOverlapLoop, hjc]
  | succ n ih =>
    intro o hm hf hex
    by_cases hco : collides existing o = true
    · obtain ⟨j, hj, hjc⟩ := hex
      have hj0 : j ≠ 0 := by
        rintro rfl
        rw [shiftBy_zero] at hjc
        rw [hco] at hjc
        exact absurd hjc (by decide)
      obtain ⟨j1, rfl⟩ : ∃ j1, j = j1 + 1 := ⟨j - 1, by omega⟩
      have hstep : avoidOverlapStep defaults o = shiftBy 1 o := by
        cases o
        simp_all [avoidOverlapStep, shiftBy]
      have hrec := ih (shiftBy 1 o) (by simp [shiftBy, hm]) (by simp [shiftBy, hf])
        ⟨j1, by omega, by rw [shiftBy_shiftBy]; exact hjc⟩
      simpa [avoidOverlapLoop, hco, hstep] using hrec
    · have hco2 : collides existing o = false := by
        cases h : collides existing o with
        | false => rfl
        | true => exact absurd h hco
      simp [avoidOverlapLoop, hco2]

/-- C2 (amended): for any candidate and `N` existing windows the overlap loop
terminates within at most `2N + 1` iterations (running it with fuel `2N + 2`
already yields a collision-free result, so the real loop exits); and whenever a
maximized or fullscreen candidate is offset, it is first replaced by the fresh
centered default options.  (The original `N` plus a small constant bound fails:
see the counterexample, where `N` windows force `2N` iterations.) -/
theorem avoidOverlap_terminates (defaults : CandidateOptions) (existing : List (Int × Int))
    (o : CandidateOptions) (fuel : Nat)
    (hdm : defaults.isMaximized = false) (hdf : defaults.isFullScreen = false) :
    collides existing (avoidOverlap defaults existing o (2 * existing.length + 2)) = false ∧
    ((o.isMaximized || o.isFullScreen) = true → collides existing o = true →
      avoidOverlapLoop defaults existing (fuel + 1) o =
        avoidOverlapLoop defaults existing fuel
          { defaults with x := defaults.x + 30, y := defaults.y + 30 }) := by
  constructor
  · unfold avoidOverlap
    by_cases hlen : 0 < existing.length
    · rw [if_pos hlen]
      by_cases hco : collides existing o = true
      · have hflags : (avoidOverlapStep defaults o).isMaximized = false ∧
            (avoidOverlapStep defaults o).isFullScreen = false := by
          by_cases hOr : (o.isMaximized || o.isFullScreen) = true
          · simp [avoidOverlapStep, hOr, hdm, hdf]
          · simp only [Bool.or_eq_true, not_or, Bool.not_eq_true] at hOr
            simp [avoidOverlapStep, hOr.1, hOr.2]
        have hloop : avoidOverlapLoop defaults existing (2 * existing.length + 2) o =
            avoidOverlapLoop defaults existing (2 * existing.length + 1)
              (avoidOverlapStep defaults o) := by
          simp [avoidOverlapLoop, hco]
        rw [hloop]
        exact avoidOverlapLoop_reaches_free defaults existing (2 * existing.length)
          (avoidOverlapStep defaults o) hflags.1 hflags.2
          (exists_free_shift existing (avoidOverlapStep defaults o))
      · have hco2 : collides existing o = false := by
          cases h : collides existing o with
          | false => rfl
          | true => exact absurd h hco
        simp [avoidOverlapLoop, hco2]
    · rw [if_neg hlen]
      have : existing = [] := List.length_eq_zero.mp (by omega)
      subst this
      simp [collides]
  · intro hflag hcoll
    simp [avoidOverlapLoop, hcoll, avoidOverlapStep, hflag]

/-- C2 witness: one existing window at `(30, 999)`, a maximized colliding
candidate at `(30, 0)`: the loop result with fuel `2·1 + 2` is collision-free,
and the first iteration replaces the maximized candidate with the offset
defaults `(130, 130)`. -/
theorem avoidOverlap_terminates_witness :
    collides [((30 : Int), (999 : Int))]
      (avoidOverlap ⟨100, 100, false, false⟩ [(30, 999)] ⟨30, 0, true, false⟩
        (2 * [((30 : Int), (999 : Int))].length + 2)) = false ∧
    avoidOverlapLoop ⟨100, 100, false, false⟩ [(30, 999)] 1 ⟨30, 0, true, false⟩ =
      avoidOverlapLoop ⟨100, 100, false, false⟩ [(30, 999)] 0 ⟨130, 130, false, false⟩ := by
  have h := avoidOverlap_terminates ⟨100, 100, false, false⟩ [(30, 999)] ⟨30, 0, true, false⟩ 0
    rfl rfl
  exact ⟨h.1, by simpa using h.2 rfl rfl⟩

/-- C2 counterexample: thirty existing windows for which the loop is still
colliding after 59 iterations and terminates only at the 60th — `2N`
iterations for `N = 30` windows, refuting the claimed bound of `N` plus a
small constant (it would need the "constant" to be at least `N`). -/
theorem avoidOverlap_linear_bound_counterexample :
    blockersThirty.length = 30 ∧
    collides blockersThirty
      (avoidOverlapLoop ⟨10000, 10000, false, false⟩ blockersThirty 59 ⟨0, 0, false, false⟩)
      = true ∧
    collides blockersThirty
      (avoidOverlapLoop ⟨10000, 10000, false, false⟩ blockersThirty 60 ⟨0, 0, false, false⟩)
      = false := by
  refine ⟨rfl, ?_, ?_⟩ <;> decide

/-! ## C5 -/

/-- Running an appended history is running the two parts in sequence. -/
theorem runOps_append (s : Registry) (t1 t2 : List WinOp) :
    runOps s (t1 ++ t2) = runOps (runOps s t1) t2 := by
  induction t1 generalizing s with
  | nil => rfl
  | cons op rest ih => simp [runOps, ih]

/-- Validity decomposes over appended histories. -/
theorem validOps_append (s : Registry) (t1 t2 : List WinOp) (h : ValidOps s (t1 ++ t2)) :
    ValidOps s t1 ∧ ValidOps (runOps s t1) t2 := by
  induction t1 generalizing s with
  | nil => exact ⟨trivial, h⟩
  | cons op rest ih =>
    obtain ⟨hop, hrest⟩ := h
    obtain ⟨h1, h2⟩ := ih (applyOp s op) hrest
    exact ⟨⟨hop, h1⟩, h2⟩

/-- One valid event preserves the registry invariant. -/
theorem regInv_apply (s : Registry) (op : WinOp) (hinv : RegInv s)
    (hop : match op with
     | .create id => id ∉ s.used
     | .focus id => id ∈ s.windows
     | .close id => id ∈ s.windows) : RegInv (applyOp s op) := by
  obtain ⟨hnd, hwnd, hiff, hsub⟩ := hinv
  cases op with
  | create id =>
    have hidw : id ∉ s.windows := fun h => hop (hsub id h)
    have hids : id ∉ s.activeWindowStack := fun h => hidw ((hiff id).mp h)
    refine ⟨?_, ?_, ?_, ?_⟩
    · simp [applyOp, List.nodup_append, hnd, hids]
    · simp [applyOp, List.nodup_append, hwnd, hidw]
    · intro x
      simp only [applyOp, List.mem_append, List.mem_singleton]
      exact or_congr_left (hiff x)
    · intro x hx
      simp only [applyOp, List.mem_append, List.mem_singleton] at hx ⊢
      rcases hx with hx | hx
      · exact Or.inl (hsub x hx)
      · exact Or.inr hx
  | focus id =>
    refine ⟨?_, hwnd, ?_, hsub⟩
    · simp only [applyOp, List.nodup_cons]
      exact ⟨fun h => ((hnd.mem_erase_iff).mp h).1 rfl, hnd.erase id⟩
    · intro x
      simp only [applyOp, List.mem_cons, hnd.mem_erase_iff]
      constructor
      · rintro (rfl | ⟨_, hx⟩)
        · exact hop
        · exact (hiff x).mp hx
      · intro hx
        by_cases hxi : x = id
        · exact Or.inl hxi
        · exact Or.inr ⟨hxi, (hiff x).mpr hx⟩
  | close id =>
    refine ⟨hnd.erase id, hwnd.erase id, ?_, ?_⟩
    · intro x
      simp only [applyOp, hnd.mem_erase_iff, hwnd.mem_erase_iff]
      exact and_congr_right (fun _ => hiff x)
    · intro x hx
      exact hsub x (List.mem_of_mem_erase hx)

/-- A valid history preserves the registry invariant. -/
theorem regInv_run (s : Registry) (t : List WinOp) (hinv : RegInv s) (hv : ValidOps s t) :
    RegInv (runOps s t) := by
  induction t generalizing s with
  | nil => exact hinv
  | cons op rest ih => exact ih (applyOp s op) (regInv_apply s op hinv hv.1) hv.2

/-- The allocated-id set only grows. -/
theorem used_mono_run (s : Registry) (t : List WinOp) (id : Nat) (h : id ∈ s.used) :
    id ∈ (runOps s t).used := by
  induction t generalizing s with
  | nil => exact h
  | cons op rest ih =>
    refine ih (applyOp s op) ?_
    cases op <;> simp [applyOp, h]

/-- A closed (but once-allocated) window never reappears in the map: creates
use fresh ids only. -/
theorem windows_not_reappear (id : Nat) (t : List WinOp) : ∀ (s : Registry), id ∉ s.windows →
    id ∈ s.used → ValidOps s t → id ∉ (runOps s t).windows := by
  induction t with
  | nil => exact fun s hw _ _ => hw
  | cons op rest ih =>
    intro s hw hu hv
    refine ih (applyOp s op) ?_ ?_ hv.2
    · cases op with
      | create id2 =>
        have hne : id2 ≠ id := fun h => hv.1 (h ▸ hu)
        simp only [applyOp, List.mem_append, List.mem_singleton]
        rintro (h | h)
        · exact hw h
        · exact hne h.symm
      | focus id2 => exact hw
      | close id2 =>
        simp only [applyOp]
        exact fun h => hw (List.mem_of_mem_erase h)
    · cases op <;> simp [applyOp, hu]

/-- Head preservation: if the current stack is `p ++ id :: q` where every id in
`p` is closed by the end of the remaining (valid) history, every window focused
in the remaining history is also closed by its end, and `id` itself survives,
then `id` ends at index 0 of the stack. -/
theorem stack_head_preserved (id : Nat) :
    ∀ (t : List WinOp) (s : Registry), RegInv s → ValidOps s t →
      (∃ p q, s.activeWindowStack = p ++ id :: q ∧
        ∀ x ∈ p, x ∉ (runOps s t).windows) →
      id ∈ (runOps s t).windows →
      (∀ j, WinOp.focus j ∈ t → j ∉ (runOps s t).windows) →
      (runOps s t).activeWindowStack.head? = some id := by
  intro t
  induction t with
  | nil =>
    intro s hinv _ hdec _ _
    obtain ⟨p, q, hstack, hp⟩ := hdec
    cases p with
    | nil => simp [runOps, hstack]
    | cons x xs =>
      exfalso
      have hx : x ∈ s.activeWindowStack := by
        rw [hstack]
        simp
      exact hp x (by simp) ((hinv.2.2.1 x).mp hx)
  | cons op rest ih =>
    intro s hinv hv hdec hidfin hfoc
    obtain ⟨p, q, hstack, hp⟩ := hdec
    have hinv2 := regInv_apply s op hinv hv.1
    cases op with
    | create id2 =>
      simp only [runOps] at hidfin hfoc hp ⊢
      refine ih (applyOp s (.create id2)) hinv2 hv.2 ⟨p, q ++ [id2], ?_, hp⟩ hidfin ?_
      · simp [applyOp, hstack]
      · exact fun j hj => hfoc j (List.mem_cons_of_mem _ hj)
    | focus id2 =>
      simp only [runOps] at hidfin hfoc hp ⊢
      by_cases hid : id2 = id
      · subst hid
        refine ih (applyOp s (.focus id2)) hinv2 hv.2
          ⟨[], s.activeWindowStack.erase id2, rfl, by simp⟩ hidfin ?_
        exact fun j hj => hfoc j (List.mem_cons_of_mem _ hj)
      · have hid2fin : id2 ∉ (runOps (applyOp s (.focus id2)) rest).windows :=
          hfoc id2 (List.mem_cons_self _ _)
        by_cases hpmem : id2 ∈ p
        · refine ih (applyOp s (.focus id2)) hinv2 hv.2 ⟨id2 :: p.erase id2, q, ?_, ?_⟩
            hidfin ?_
          · simp only [applyOp, hstack]
            rw [List.erase_append_left _ hpmem]
            rfl
          · intro x hx
            rcases List.mem_cons.mp hx with rfl | hx2
            · exact hid2fin
            · exact hp x (List.mem_of_mem_erase hx2)
          · exact fun j hj => hfoc j (List.mem_cons_of_mem _ hj)
        · refine ih (applyOp s (.focus id2)) hinv2 hv.2 ⟨id2 :: p, q.erase id2, ?_, ?_⟩
            hidfin ?_
          · simp only [applyOp, hstack]
            rw [List.erase_append_right _ hpmem,
              List.erase_cons_tail (by simpa using fun h : id = id2 => hid h.symm)]
            rfl
          · intro x hx
            rcases List.mem_cons.mp hx with rfl | hx2
            · exact hid2fin
            · exact hp x hx2
          · exact fun j hj => hfoc j (List.mem_cons_of_mem _ hj)
    | close id2 =>
      simp only [runOps] at hidfin hfoc hp ⊢
      have hidne : id2 ≠ id := by
        rintro rfl
        have hidw : id2 ∈ s.windows := hv.1
        have hgone : id2 ∉ (applyOp s (.close id2)).windows := by
          simp only [applyOp]
          exact fun h => (hinv.2.1.mem_erase_iff.mp h).1 rfl
        have hused : id2 ∈ (applyOp s (.close id2)).used := hinv.2.2.2 id2 hidw
        exact windows_not_reappear id2 rest _ hgone hused hv.2 hidfin
      by_cases hpmem : id2 ∈ p
      · refine ih (applyOp s (.close id2)) hinv2 hv.2 ⟨p.erase id2, q, ?_, ?_⟩ hidfin ?_
        · simp only [applyOp, hstack]
          rw [List.erase_append_left _ hpmem]
        · exact fun x hx => hp x (List.mem_of_mem_erase hx)
        · exact fun j hj => hfoc j (List.mem_cons_of_mem _ hj)
      · refine ih (applyOp s (.close id2)) hinv2 hv.2 ⟨p, q.erase id2, ?_, hp⟩ hidfin ?_
        · simp only [applyOp, hstack]
          rw [List.erase_append_right _ hpmem,
            List.erase_cons_tail (by simpa using fun h : id = id2 => hidne h.symm)]
        · exact fun j hj => hfoc j (List.mem_cons_of_mem _ hj)

/-- C5: after any valid sequence of create/focus/close operations the
activation stack contains exactly the ids of the currently registered windows
(the keys of the windows map) with no duplicates, and the most recently
focused still-registered window id sits at index 0 (expressed by splitting
the history at the last focus event whose target is still registered at the
end). -/
theorem activation_stack_invariant (ops : List WinOp) (hv : ValidOps emptyRegistry ops) :
    (runOps emptyRegistry ops).activeWindowStack.Nodup ∧
    (∀ id, id ∈ (runOps emptyRegistry ops).activeWindowStack ↔
      id ∈ (runOps emptyRegistry ops).windows) ∧
    (∀ id h1 h2, ops = h1 ++ WinOp.focus id :: h2 →
      id ∈ (runOps emptyRegistry ops).windows →
      (∀ j, WinOp.focus j ∈ h2 → j ∉ (runOps emptyRegistry ops).windows) →
      (runOps emptyRegistry ops).activeWindowStack.head? = some id) := by
  have hinv0 : RegInv emptyRegistry :=
    ⟨List.nodup_nil, List.nodup_nil, fun _ => Iff.rfl, fun _ h => h⟩
  have hinv := regInv_run emptyRegistry ops hinv0 hv
  refine ⟨hinv.1, hinv.2.2.1, ?_⟩
  intro id h1 h2 hops hidfin hfoc
  subst hops
  obtain ⟨v1, v2⟩ := validOps_append emptyRegistry h1 (WinOp.focus id :: h2) hv
  have hinv1 := regInv_run emptyRegistry h1 hinv0 v1
  have hinv2 := regInv_apply _ (.focus id) hinv1 v2.1
  have hrw : runOps emptyRegistry (h1 ++ WinOp.focus id :: h2) =
      runOps (applyOp (runOps emptyRegistry h1) (.focus id)) h2 := by
    rw [runOps_append]
    rfl
  rw [hrw] at hidfin hfoc ⊢
  exact stack_head_preserved id h2 _ hinv2 v2.2
    ⟨[], (runOps emptyRegistry h1).activeWindowStack.erase id, rfl, by simp⟩ hidfin hfoc

/-- C5 witness: the valid history create 1, create 2, focus 1, focus 2,
close 2 leaves exactly window 1 registered, the stack equal to `[1]`, and the
most recently focused surviving window (1) at index 0. -/
theorem activation_stack_invariant_witness :
    ValidOps emptyRegistry
      [WinOp.create 1, WinOp.create 2, WinOp.focus 1, WinOp.focus 2, WinOp.close 2] ∧
    (runOps emptyRegistry
        [WinOp.create 1, WinOp.create 2, WinOp.focus 1, WinOp.focus 2,
          WinOp.close 2]).windows = [1] ∧
    (runOps emptyRegistry
        [WinOp.create 1, WinOp.create 2, WinOp.focus 1, WinOp.focus 2,
          WinOp.close 2]).activeWindowStack.head? = some 1 := by
  have hvalid : ValidOps emptyRegistry
      [WinOp.create 1, WinOp.create 2, WinOp.focus 1, WinOp.focus 2, WinOp.close 2] := by
    simp [ValidOps, applyOp, emptyRegistry]
  refine ⟨hvalid, by decide, ?_⟩
  exact (activation_stack_invariant _ hvalid).2.2 1
    [WinOp.create 1, WinOp.create 2] [WinOp.focus 2, WinOp.close 2] rfl (by decide)
    (by intro j hj; simp at hj; subst hj; decide)
